import Mathlib

/-!
# Verification of the structured-logging-echo enrichment layer

Shallow embedding of the Go sources: the `logger.ContextHandler` decorator
over `log/slog`, the two echo middlewares (`CorrelationId`,
`AddRouteMetaData`), the `LogValue` implementations of `Customer` and
`Bank`, the fallback `randomString` generator, and the legacy
`getFruitByIndex` example.

Go's `context.Context` is modelled as the chain of `WithValue` wrappers
(most recent binding first).  Values stored in a context are modelled by
`CtxValue`: the sources only ever store strings, but a context may carry
values of any dynamic type, which matters because
`getDefaultValueFromContext` performs an unchecked type assertion
`ctxValue.(string)`.  A Go panic is modelled explicitly (`Except.error`
for the accessor, `HandleResult.panicked` for the handler).
-/

/-- A value stored in a Go `context.Context` (dynamic type `interface`).
The repository only stores strings; `vint` stands for any non-string
value another piece of code might bind under the same string key. -/
inductive CtxValue where
  | vstr : String → CtxValue
  | vint : Int → CtxValue
  deriving Repr, DecidableEq

/-- A Go context: the chain of `context.WithValue` wrappers, most recent
binding first.  `context.WithValue(parent, k, v)` is modelled by consing. -/
abbrev Context := List (String × CtxValue)

/-- `context.WithValue(c, k, v)`: a new derived context; the parent is untouched. -/
def Context.withValue (c : Context) (k : String) (v : CtxValue) : Context :=
  (k, v) :: c

/-- `c.Value(k)`: walk the wrapper chain outward, most recent binding wins. -/
def Context.value (c : Context) (k : String) : Option CtxValue :=
  match c with
  | [] => none
  | (k2, v) :: rest => if k2 = k then some v else Context.value rest k

/-- `getDefaultValueFromContext` from `logger/logger.go`:
```go
value := ""
ctxValue := ctx.Value(key)
if ctxValue != nil {
    value = ctxValue.(string)
}
return value
```
The type assertion `ctxValue.(string)` is unchecked: on a non-string
value it panics, modelled as `Except.error`. -/
def getDefaultValueFromContext (ctx : Context) (key : String) : Except String String :=
  match ctx.value key with
  | none => .ok ""
  | some (.vstr s) => .ok s
  | some (.vint _) => .error "interface conversion panic"

/-- The value a well-typed lookup produces: the bound string, or `""` when
the key is unbound. -/
def ctxString (ctx : Context) (k : String) : String :=
  match ctx.value k with
  | some (.vstr s) => s
  | _ => ""

/-- `true` when `k` is unbound in `ctx` or bound to a string, i.e. when the
type assertion in `getDefaultValueFromContext` cannot panic. -/
def stringOk (ctx : Context) (k : String) : Bool :=
  match ctx.value k with
  | none => true
  | some (.vstr _) => true
  | some (.vint _) => false

/-- All four metadata keys read by `addRequestId` are unbound-or-string. -/
def metaOk (ctx : Context) : Bool :=
  stringOk ctx "correlation_id" && stringOk ctx "request_method" &&
    stringOk ctx "request_path" && stringOk ctx "request_user_agent"

/-- A structured log value (`slog.Value`): scalar string, scalar int, or a
group of key/value pairs. -/
inductive LogValue where
  | str : String → LogValue
  | int : Int → LogValue
  | group : List (String × LogValue) → LogValue

/-- An attribute (`slog.Attr`): key plus value. -/
abbrev Attr := String × LogValue

/-- `true` for a scalar (non-group) `slog.Value`. -/
def LogValue.isScalar : LogValue → Bool
  | .group _ => false
  | _ => true

/-- Severity of a log record. -/
inductive LogLevel where
  | info : LogLevel
  | error : LogLevel
  deriving Repr, DecidableEq

/-- A log record (`slog.Record`): time, level, message and the ordered
attribute sequence. -/
structure Record where
  time : Nat
  level : LogLevel
  msg : String
  attrs : List Attr

/-- `slog.Record.AddAttrs`: append attributes after the existing ones.
`Handle` receives its `slog.Record` parameter by value, so this produces
the callee's copy; the caller's record is a distinct, unchanged value. -/
def Record.AddAttrs (r : Record) (as : List Attr) : Record :=
  { r with attrs := r.attrs ++ as }

/-- `addRequestId` from `logger/logger.go`: read the four metadata keys
through `getDefaultValueFromContext` (each read may panic) and build the
single `meta_information` group attribute. -/
def addRequestId (ctx : Context) : Except String (List Attr) :=
  match getDefaultValueFromContext ctx "correlation_id" with
  | .error e => .error e
  | .ok correlation =>
    match getDefaultValueFromContext ctx "request_method" with
    | .error e => .error e
    | .ok method =>
      match getDefaultValueFromContext ctx "request_path" with
      | .error e => .error e
      | .ok path =>
        match getDefaultValueFromContext ctx "request_user_agent" with
        | .error e => .error e
        | .ok agent =>
          .ok [("meta_information", LogValue.group
            [("correlation_id", LogValue.str correlation),
             ("request_method", LogValue.str method),
             ("request_path", LogValue.str path),
             ("request_user_agent", LogValue.str agent)])]

/-- The attribute list `addRequestId` returns when no read panics. -/
def metaAttrs (ctx : Context) : List Attr :=
  [("meta_information", LogValue.group
    [("correlation_id", LogValue.str (ctxString ctx "correlation_id")),
     ("request_method", LogValue.str (ctxString ctx "request_method")),
     ("request_path", LogValue.str (ctxString ctx "request_path")),
     ("request_user_agent", LogValue.str (ctxString ctx "request_user_agent"))])]

/-- An `slog.Handler` value: the base JSON handler, handlers the base
derives via its own `WithAttrs`/`WithGroup`, and the `ContextHandler`
decorator wrapping an inner handler. -/
inductive Handler where
  | json : Handler
  | withAttrsOf : Handler → List Attr → Handler
  | withGroupOf : Handler → String → Handler
  | contextHandler : Handler → Handler

/-- `true` exactly for a `ContextHandler` decorator. -/
def Handler.isContextHandler : Handler → Bool
  | .contextHandler _ => true
  | _ => false

/-- `ContextHandler.WithAttrs`: wrap the inner handler's derivation in a
new `ContextHandler`; a non-decorator handler derives its own handler. -/
def Handler.WithAttrs : Handler → List Attr → Handler
  | .contextHandler inner, attrs => .contextHandler (Handler.WithAttrs inner attrs)
  | h, attrs => .withAttrsOf h attrs

/-- `ContextHandler.WithGroup`: wrap the inner handler's derivation in a
new `ContextHandler`; a non-decorator handler derives its own handler. -/
def Handler.WithGroup : Handler → String → Handler
  | .contextHandler inner, name => .contextHandler (Handler.WithGroup inner name)
  | h, name => .withGroupOf h name

/-- Behaviour of the non-decorator handlers (the external sink): given the
handler, context and record, return the sink's success or error value. -/
abbrev Sink := Handler → Context → Record → Except String Unit

/-- Outcome of a `Handle` call: a Go panic, or the returned error value. -/
inductive HandleResult where
  | panicked : String → HandleResult
  | returned : Except String Unit → HandleResult

/-- `ContextHandler.Handle`:
```go
r.AddAttrs(ch.addRequestId(ctx)...)
return ch.Handler.Handle(ctx, r)
```
A panic inside `addRequestId` aborts the call; otherwise the enriched
copy of the record is delegated to the wrapped handler.  A non-decorator
handler is the sink itself. -/
def Handler.Handle (sink : Sink) : Handler → Context → Record → HandleResult
  | .contextHandler inner, ctx, r =>
    match addRequestId ctx with
    | .error e => .panicked e
    | .ok as => Handler.Handle sink inner ctx (r.AddAttrs as)
  | h, ctx, r => .returned (sink h ctx r)

/-- `getFruitByIndex` outcome: the fruit, the returned `"not valid index"`
error, or a runtime index-out-of-range panic. -/
inductive FruitResult where
  | found : String → FruitResult
  | invalidIndex : FruitResult
  | panicOutOfRange : FruitResult
  deriving Repr, DecidableEq

/-- `getFruitByIndex` from `legacy_logger.go`:
```go
if len(fruits) < index || index < 0 {
    return "", errors.New("not valid index")
}
return fruits[index], nil
```
The guard misses `index == len(fruits)`, where `fruits[index]` panics. -/
def getFruitByIndex (index : Int) (fruits : List String) : FruitResult :=
  if (fruits.length : Int) < index ∨ index < 0 then .invalidIndex
  else if h : index.toNat < fruits.length then .found (fruits.get ⟨index.toNat, h⟩)
  else .panicOutOfRange

/-- A log event emitted by a middleware itself (via `slog.ErrorContext`):
severity, the context it was logged against, and the message. -/
structure LogEvent where
  level : LogLevel
  eventCtx : Context
  msg : String

/-- The 62-character alphanumeric charset of `randomString`. -/
def charset : List Char :=
  "abcdefghijklmnopqrstuvwxyzABCDEFGHIJKLMNOPQRSTUVWXYZ0123456789".toList

/-- `randomString` from `main.go`: fill `length` bytes with
`charset[seededRand.Intn(len(charset))]`.  `randIntn i` models the value
of the `i`-th `Intn(62)` call; `rand.Intn(n)` always returns a value in
`[0, n)`, so indexing never goes out of range when `randIntn i < 62`. -/
def randomString (length : Nat) (randIntn : Nat → Nat) : String :=
  String.mk ((List.range length).map (fun i => charset.getD (randIntn i) 'a'))

/-- An `http.Request` as used here: its carried context, request URI,
method and user agent. -/
structure Request where
  reqCtx : Context
  requestURI : String
  method : String
  userAgent : String

/-- An `echo.Context` as used here: the in-flight request.
`c.SetRequest(c.Request().Clone(ctx))` replaces the carried context. -/
structure EchoCtx where
  request : Request

/-- The context rebinding `CorrelationId` performs before calling `next`:
bind the generated id (or, on generation failure, the 32-character
fallback) under `correlation_id`. -/
def corrIdTransform (uuidRes : Except String String) (randIntn : Nat → Nat)
    (c : EchoCtx) : EchoCtx :=
  match uuidRes with
  | .ok requestId =>
    { request := { c.request with
        reqCtx := c.request.reqCtx.withValue "correlation_id" (CtxValue.vstr requestId) } }
  | .error _ =>
    { request := { c.request with
        reqCtx := c.request.reqCtx.withValue "correlation_id"
          (CtxValue.vstr (randomString 32 randIntn)) } }

/-- `CorrelationId` middleware from `main.go`.  `uuidRes` models the
outcome of `uuid.GenerateUUID()`.  Returns the events the middleware
itself logs together with the (sole) invocation of `next`. -/
def CorrelationId (uuidRes : Except String String) (randIntn : Nat → Nat)
    (next : EchoCtx → Except String Unit) (c : EchoCtx) :
    List LogEvent × Except String Unit :=
  match uuidRes with
  | .ok requestId =>
    let ctx := c.request.reqCtx.withValue "correlation_id" (CtxValue.vstr requestId)
    ([], next { request := { c.request with reqCtx := ctx } })
  | .error e =>
    let ev : LogEvent :=
      { level := .error, eventCtx := c.request.reqCtx,
        msg := "Error in generating unique correlation id " ++ e }
    let requestId := randomString 32 randIntn
    let ctx := c.request.reqCtx.withValue "correlation_id" (CtxValue.vstr requestId)
    ([ev], next { request := { c.request with reqCtx := ctx } })

/-- The context rebinding `AddRouteMetaData` performs before calling
`next`: bind request path, then method, then user agent. -/
def routeMetaTransform (c : EchoCtx) : EchoCtx :=
  { request := { c.request with
      reqCtx := ((c.request.reqCtx.withValue "request_path"
          (CtxValue.vstr c.request.requestURI)).withValue "request_method"
          (CtxValue.vstr c.request.method)).withValue "request_user_agent"
          (CtxValue.vstr c.request.userAgent) } }

/-- `AddRouteMetaData` middleware from `main.go`: read URI, method and
user agent off the request, bind all three, rebind the request, call
`next`. -/
def AddRouteMetaData (next : EchoCtx → Except String Unit) (c : EchoCtx) :
    List LogEvent × Except String Unit :=
  let path := c.request.requestURI
  let method := c.request.method
  let userAgent := c.request.userAgent
  let ctx := ((c.request.reqCtx.withValue "request_path" (CtxValue.vstr path)).withValue
      "request_method" (CtxValue.vstr method)).withValue
      "request_user_agent" (CtxValue.vstr userAgent)
  ([], next { request := { c.request with reqCtx := ctx } })

/-- `Customer` from `main.go`. -/
structure Customer where
  UserId : String
  Name : String
  EmailId : String
  GSTNumber : String

/-- `Customer.LogValue`: a group holding only `user_id`. -/
def Customer.LogValue (c : Customer) : LogValue :=
  LogValue.group [("user_id", LogValue.str c.UserId)]

/-- `Bank` from `main.go`. -/
structure Bank where
  BranchId : Int
  BranchName : String
  BranchSecret : String
  Customers : List Customer

/-- `Bank.LogValue`: the single scalar `BranchId`. -/
def Bank.LogValue (b : Bank) : LogValue :=
  LogValue.int b.BranchId

/-- A sample record used by concrete witnesses. -/
def sampleRecord : Record :=
  { time := 0, level := .info, msg := "Logging customer data",
    attrs := [("customer", LogValue.group [("user_id", LogValue.str "u1")])] }

/-- A sample echo context used by concrete witnesses. -/
def sampleEchoCtx : EchoCtx :=
  { request := { reqCtx := [], requestURI := "/get_customer",
                 method := "GET", userAgent := "test-agent" } }

/-! ## Helper lemmas -/

lemma getDefault_ok (ctx : Context) (k : String) (h : stringOk ctx k = true) :
    getDefaultValueFromContext ctx k = .ok (ctxString ctx k) := by
  unfold getDefaultValueFromContext ctxString
  unfold stringOk at h
  cases hv : Context.value ctx k with
  | none => simp
  | some v =>
    cases v with
    | vstr s => simp
    | vint n => rw [hv] at h; simp at h

lemma addRequestId_ok (ctx : Context) (h : metaOk ctx = true) :
    addRequestId ctx = .ok (metaAttrs ctx) := by
  unfold metaOk at h
  simp only [Bool.and_eq_true] at h
  obtain ⟨⟨⟨h1, h2⟩, h3⟩, h4⟩ := h
  unfold addRequestId metaAttrs
  rw [getDefault_ok _ _ h1, getDefault_ok _ _ h2, getDefault_ok _ _ h3,
    getDefault_ok _ _ h4]

lemma Handle_ctx_eq (sink : Sink) (inner : Handler) (ctx : Context) (r : Record)
    (h : metaOk ctx = true) :
    Handler.Handle sink (Handler.contextHandler inner) ctx r
      = Handler.Handle sink inner ctx (r.AddAttrs (metaAttrs ctx)) := by
  have ha := addRequestId_ok ctx h
  simp [Handler.Handle, ha]

lemma randomString_length (length : Nat) (f : Nat → Nat) :
    (randomString length f).length = length := by
  unfold randomString
  simp [String.length]

lemma charset_getD_mem : ∀ n, n < 62 → charset.contains (charset.getD n 'a') = true := by
  decide

/-! ## Claim theorems -/

/-- C9: `getFruitByIndex` returns the `"not valid index"` error exactly
when `index < 0` or `index > len(fruits)`; at `index = len(fruits)` the
guard does not fire and the subsequent access panics out of range (e.g.
index 4 on the 4-element fruit list). -/
theorem getFruitByIndex_bounds (index : Int) (fruits : List String) :
    (getFruitByIndex index fruits = .invalidIndex ↔
      (index < 0 ∨ (fruits.length : Int) < index))
    ∧ getFruitByIndex (fruits.length : Int) fruits = .panicOutOfRange
    ∧ getFruitByIndex 4 ["apple", "orange", "banana", "kivi"] = .panicOutOfRange := by
  refine ⟨?_, ?_, rfl⟩
  · unfold getFruitByIndex
    by_cases hg : ((fruits.length : Int) < index ∨ index < 0)
    · rw [if_pos hg]
      exact ⟨fun _ => Or.symm hg, fun _ => rfl⟩
    · rw [if_neg hg]
      constructor
      · intro he
        by_cases hb : index.toNat < fruits.length
        · rw [dif_pos hb] at he; exact absurd he (by simp)
        · rw [dif_neg hb] at he; exact absurd he (by simp)
      · intro hor; exact absurd (Or.symm hor) hg
  · unfold getFruitByIndex
    rw [if_neg (by omega), dif_neg (by omega)]

/-- C8: the context store is immutable-append: `withValue` binds the new
key, and every other key still reads the value it read on the parent
context (the parent itself is a distinct, unchanged value). -/
theorem context_withValue_value (c : Context) (k k2 : String) (v : CtxValue)
    (h : k2 ≠ k) :
    Context.value (Context.withValue c k v) k = some v
    ∧ Context.value (Context.withValue c k v) k2 = Context.value c k2 := by
  constructor
  · show (if k = k then some v else Context.value c k) = some v
    rw [if_pos rfl]
  · show (if k = k2 then some v else Context.value c k2) = Context.value c k2
    rw [if_neg (fun hh => h hh.symm)]

/-- C3: `Customer.LogValue` depends only on `UserId` and is a group with
exactly the key `user_id`; `Bank.LogValue` depends only on `BranchId` and
is a single scalar, never a group — unselected fields never influence or
appear in the produced log value. -/
theorem LogValue_selective (c1 c2 : Customer) (b1 b2 : Bank)
    (hc : c1.UserId = c2.UserId) (hb : b1.BranchId = b2.BranchId) :
    c1.LogValue = c2.LogValue
    ∧ c1.LogValue = LogValue.group [("user_id", LogValue.str c1.UserId)]
    ∧ b1.LogValue = b2.LogValue
    ∧ b1.LogValue = LogValue.int b1.BranchId
    ∧ (b1.LogValue).isScalar = true := by
  refine ⟨?_, rfl, ?_, rfl, rfl⟩
  · unfold Customer.LogValue; rw [hc]
  · unfold Bank.LogValue; rw [hb]

theorem LogValue_selective_witness :
    Customer.LogValue
        { UserId := "u1", Name := "Alice", EmailId := "alice@x", GSTNumber := "G1" }
      = Customer.LogValue
          { UserId := "u1", Name := "Bob", EmailId := "bob@y", GSTNumber := "G2" }
    ∧ Bank.LogValue
        { BranchId := 7, BranchName := "Main", BranchSecret := "s3cret", Customers := [] }
      = Bank.LogValue
          { BranchId := 7, BranchName := "Other", BranchSecret := "hidden",
            Customers := [{ UserId := "u", Name := "n", EmailId := "e", GSTNumber := "g" }] }
    ∧ (Bank.LogValue
        { BranchId := 7, BranchName := "Main", BranchSecret := "s3cret",
          Customers := [] }).isScalar = true := by
  have h := LogValue_selective
    { UserId := "u1", Name := "Alice", EmailId := "alice@x", GSTNumber := "G1" }
    { UserId := "u1", Name := "Bob", EmailId := "bob@y", GSTNumber := "G2" }
    { BranchId := 7, BranchName := "Main", BranchSecret := "s3cret", Customers := [] }
    { BranchId := 7, BranchName := "Other", BranchSecret := "hidden",
      Customers := [{ UserId := "u", Name := "n", EmailId := "e", GSTNumber := "g" }] }
    rfl rfl
  exact ⟨h.1, h.2.2.1, h.2.2.2.2⟩

/-- C7: both middlewares are pure pass-through wrappers: each invokes the
next stage exactly once, on the context-rebound request, and returns the
next stage's result unchanged (the result is one application of `next`,
which the middleware never inspects). -/
theorem middlewares_pass_through (uuidRes : Except String String)
    (randIntn : Nat → Nat) (next : EchoCtx → Except String Unit) (c : EchoCtx) :
    (CorrelationId uuidRes randIntn next c).2 = next (corrIdTransform uuidRes randIntn c)
    ∧ (AddRouteMetaData next c).2 = next (routeMetaTransform c) := by
  refine ⟨?_, rfl⟩
  cases uuidRes <;> rfl

/-- C1: whenever each of the four metadata keys is unbound or bound to a
string, `ContextHandler.Handle` delegates the record with exactly one
`meta_information` group appended after the existing attributes,
containing exactly the four keys, each the bound string of that key or
`""` when the key is unbound. -/
theorem Handle_appends_meta_group (sink : Sink) (inner : Handler) (ctx : Context)
    (r : Record) (h : metaOk ctx = true) :
    Handler.Handle sink (Handler.contextHandler inner) ctx r
      = Handler.Handle sink inner ctx
          { r with attrs := r.attrs ++
              [("meta_information", LogValue.group
                [("correlation_id", LogValue.str (ctxString ctx "correlation_id")),
                 ("request_method", LogValue.str (ctxString ctx "request_method")),
                 ("request_path", LogValue.str (ctxString ctx "request_path")),
                 ("request_user_agent", LogValue.str (ctxString ctx "request_user_agent"))])] }
    ∧ (∀ k, Context.value ctx k = none → ctxString ctx k = "")
    ∧ (∀ k s, Context.value ctx k = some (CtxValue.vstr s) → ctxString ctx k = s) := by
  refine ⟨Handle_ctx_eq sink inner ctx r h, ?_, ?_⟩
  · intro k hk; unfold ctxString; rw [hk]
  · intro k s hk; unfold ctxString; rw [hk]

theorem Handle_appends_meta_group_witness :
    metaOk [] = true
    ∧ Handler.Handle (fun _ _ _ => Except.ok ()) (Handler.contextHandler Handler.json)
        [] sampleRecord
      = Handler.Handle (fun _ _ _ => Except.ok ()) Handler.json []
          { sampleRecord with attrs := sampleRecord.attrs ++
              [("meta_information", LogValue.group
                [("correlation_id", LogValue.str ""),
                 ("request_method", LogValue.str ""),
                 ("request_path", LogValue.str ""),
                 ("request_user_agent", LogValue.str "")])] }
    ∧ ctxString [] "correlation_id" = "" := by
  have h := Handle_appends_meta_group (fun _ _ _ => Except.ok ()) Handler.json []
    sampleRecord rfl
  exact ⟨rfl, h.1, h.2.1 "correlation_id" rfl⟩

/-- C2 counterexample: binding a non-string value under a metadata key
makes `getDefaultValueFromContext` panic instead of returning the
empty-string default, refuting "never fails, returns default on any type
mismatch". -/
theorem getDefault_never_fails_cex :
    getDefaultValueFromContext [("correlation_id", CtxValue.vint 7)] "correlation_id"
      = .error "interface conversion panic"
    ∧ getDefaultValueFromContext [("correlation_id", CtxValue.vint 7)] "correlation_id"
      ≠ .ok "" := by
  refine ⟨rfl, ?_⟩
  intro h
  simp [getDefaultValueFromContext, Context.value] at h

/-- C2 (amended): `getDefaultValueFromContext` returns the bound value
when the key is bound to a string and the empty-string default when the
key is unbound, but on a value of a non-string type the unchecked type
assertion panics. -/
theorem getDefault_total_spec (ctx : Context) (key : String) :
    (Context.value ctx key = none → getDefaultValueFromContext ctx key = .ok "")
    ∧ (∀ s, Context.value ctx key = some (CtxValue.vstr s) →
        getDefaultValueFromContext ctx key = .ok s)
    ∧ (∀ n, Context.value ctx key = some (CtxValue.vint n) →
        getDefaultValueFromContext ctx key = .error "interface conversion panic") := by
  refine ⟨?_, ?_, ?_⟩
  · intro hk; unfold getDefaultValueFromContext; rw [hk]
  · intro s hk; unfold getDefaultValueFromContext; rw [hk]
  · intro n hk; unfold getDefaultValueFromContext; rw [hk]

theorem getDefault_total_spec_witness :
    getDefaultValueFromContext [("correlation_id", CtxValue.vstr "abc")] "correlation_id"
      = .ok "abc"
    ∧ getDefaultValueFromContext [] "request_path" = .ok "" := by
  exact ⟨(getDefault_total_spec [("correlation_id", CtxValue.vstr "abc")]
      "correlation_id").2.1 "abc" rfl,
    (getDefault_total_spec [] "request_path").1 rfl⟩

/-- C4: `WithAttrs` and `WithGroup` on a `ContextHandler` return a new
`ContextHandler` wrapping the inner handler's derivation (never the bare
derivation), and every handler so derived still appends the
`meta_information` group on subsequent `Handle` calls. -/
theorem WithAttrs_WithGroup_preserve (inner : Handler) (attrs : List Attr)
    (name : String) (sink : Sink) (ctx : Context) (r : Record)
    (h : metaOk ctx = true) :
    Handler.WithAttrs (Handler.contextHandler inner) attrs
      = Handler.contextHandler (Handler.WithAttrs inner attrs)
    ∧ Handler.WithGroup (Handler.contextHandler inner) name
      = Handler.contextHandler (Handler.WithGroup inner name)
    ∧ Handler.Handle sink (Handler.WithAttrs (Handler.contextHandler inner) attrs) ctx r
      = Handler.Handle sink (Handler.WithAttrs inner attrs) ctx
          (r.AddAttrs (metaAttrs ctx))
    ∧ Handler.Handle sink (Handler.WithGroup (Handler.contextHandler inner) name) ctx r
      = Handler.Handle sink (Handler.WithGroup inner name) ctx
          (r.AddAttrs (metaAttrs ctx)) := by
  refine ⟨rfl, rfl, ?_, ?_⟩
  · exact Handle_ctx_eq sink (Handler.WithAttrs inner attrs) ctx r h
  · exact Handle_ctx_eq sink (Handler.WithGroup inner name) ctx r h

theorem WithAttrs_WithGroup_preserve_witness :
    metaOk [("correlation_id", CtxValue.vstr "abc")] = true
    ∧ Handler.WithAttrs (Handler.contextHandler Handler.json) [("env", LogValue.str "prod")]
      = Handler.contextHandler (Handler.WithAttrs Handler.json [("env", LogValue.str "prod")])
    ∧ Handler.Handle (fun _ _ _ => Except.ok ())
        (Handler.WithAttrs (Handler.contextHandler Handler.json) [("env", LogValue.str "prod")])
        [("correlation_id", CtxValue.vstr "abc")] sampleRecord
      = Handler.Handle (fun _ _ _ => Except.ok ())
          (Handler.WithAttrs Handler.json [("env", LogValue.str "prod")])
          [("correlation_id", CtxValue.vstr "abc")]
          (sampleRecord.AddAttrs (metaAttrs [("correlation_id", CtxValue.vstr "abc")])) := by
  have h := WithAttrs_WithGroup_preserve Handler.json [("env", LogValue.str "prod")] "g"
    (fun _ _ _ => Except.ok ()) [("correlation_id", CtxValue.vstr "abc")] sampleRecord rfl
  exact ⟨rfl, h.1, h.2.2.1⟩

/-- C5: when `uuid.GenerateUUID` fails, `CorrelationId` logs one
error-severity event against the as-yet-unenriched context, binds a
fallback id of exactly 32 characters drawn only from the 62-character
alphanumeric charset under `correlation_id`, and still invokes `next`
normally, returning its result — the failure never reaches the caller. -/
theorem CorrelationId_fallback (e : String) (randIntn : Nat → Nat)
    (next : EchoCtx → Except String Unit) (c : EchoCtx)
    (hr : ∀ i, randIntn i < 62) :
    (CorrelationId (.error e) randIntn next c).1
      = [{ level := .error, eventCtx := c.request.reqCtx,
           msg := "Error in generating unique correlation id " ++ e }]
    ∧ (randomString 32 randIntn).length = 32
    ∧ ((randomString 32 randIntn).toList.all (fun ch => charset.contains ch)) = true
    ∧ Context.value (corrIdTransform (.error e) randIntn c).request.reqCtx "correlation_id"
      = some (CtxValue.vstr (randomString 32 randIntn))
    ∧ (CorrelationId (.error e) randIntn next c).2
      = next (corrIdTransform (.error e) randIntn c) := by
  refine ⟨rfl, randomString_length 32 randIntn, ?_, ?_, rfl⟩
  · rw [show (randomString 32 randIntn).toList
        = (List.range 32).map (fun i => charset.getD (randIntn i) 'a') from rfl]
    rw [List.all_eq_true]
    intro ch hch
    rw [List.mem_map] at hch
    obtain ⟨i, _, rfl⟩ := hch
    exact charset_getD_mem (randIntn i) (hr i)
  · show (if "correlation_id" = "correlation_id"
        then some (CtxValue.vstr (randomString 32 randIntn))
        else Context.value c.request.reqCtx "correlation_id")
      = some (CtxValue.vstr (randomString 32 randIntn))
    rw [if_pos rfl]

theorem CorrelationId_fallback_witness :
    ((fun _ => 0 : Nat → Nat) 5 < 62)
    ∧ (randomString 32 (fun _ => 0)).length = 32
    ∧ ((randomString 32 (fun _ => 0)).toList.all (fun ch => charset.contains ch)) = true
    ∧ (CorrelationId (.error "boom") (fun _ => 0) (fun _ => Except.ok ()) sampleEchoCtx).2
      = Except.ok ()
    ∧ (CorrelationId (.error "boom") (fun _ => 0) (fun _ => Except.ok ()) sampleEchoCtx).1
      = [{ level := .error, eventCtx := sampleEchoCtx.request.reqCtx,
           msg := "Error in generating unique correlation id " ++ "boom" }] := by
  have h := CorrelationId_fallback "boom" (fun _ => 0) (fun _ => Except.ok ())
    sampleEchoCtx (fun _ => by show (0 : Nat) < 62; decide)
  exact ⟨by decide, h.2.1, h.2.2.1, h.2.2.2.2, h.1⟩

/-- C6 counterexample: with a non-string value bound under a metadata
key, `ContextHandler.Handle` panics before reaching the sink, while the
wrapped sink itself would have returned success — the result is not the
sink's result, refuting "the handler itself never raises". -/
theorem Handle_sink_result_cex :
    Handler.Handle (fun _ _ _ => Except.ok ()) (Handler.contextHandler Handler.json)
        [("correlation_id", CtxValue.vint 7)] sampleRecord
      = HandleResult.panicked "interface conversion panic"
    ∧ ((fun _ _ _ => Except.ok ()) : Sink) Handler.json
        [("correlation_id", CtxValue.vint 7)]
        (sampleRecord.AddAttrs (metaAttrs [("correlation_id", CtxValue.vint 7)]))
      = Except.ok () := by
  exact ⟨rfl, rfl⟩

/-- C6 (amended): whenever each of the four metadata keys is unbound or
bound to a string, `ContextHandler.Handle` adds no error of its own: its
result is exactly the wrapped sink's `Handle` on the enriched record,
success or failure propagated unchanged; when a metadata key is bound to
a non-string value, the accessor's type assertion panics instead. -/
theorem Handle_propagates_sink_result (sink : Sink) (inner : Handler) (ctx : Context)
    (r : Record) (h : metaOk ctx = true) (hi : inner.isContextHandler = false) :
    Handler.Handle sink (Handler.contextHandler inner) ctx r
      = HandleResult.returned (sink inner ctx (r.AddAttrs (metaAttrs ctx))) := by
  rw [Handle_ctx_eq sink inner ctx r h]
  cases inner with
  | json => rfl
  | withAttrsOf h2 as => rfl
  | withGroupOf h2 n => rfl
  | contextHandler i => simp [Handler.isContextHandler] at hi

theorem Handle_propagates_sink_result_witness :
    Handler.Handle (fun _ _ _ => Except.error "disk full")
        (Handler.contextHandler Handler.json) [] sampleRecord
      = HandleResult.returned (Except.error "disk full") := by
  exact Handle_propagates_sink_result (fun _ _ _ => Except.error "disk full")
    Handler.json [] sampleRecord rfl rfl

/-- C10: `Handle` receives its record by value: the enrichment is a new
record — the delegated record extends the caller's attribute list by the
one appended group (so has strictly more attributes), while the record
value the caller holds is untouched by the call. -/
theorem Handle_record_by_value (sink : Sink) (inner : Handler) (ctx : Context)
    (r : Record) (h : metaOk ctx = true) :
    Handler.Handle sink (Handler.contextHandler inner) ctx r
      = Handler.Handle sink inner ctx (r.AddAttrs (metaAttrs ctx))
    ∧ (r.AddAttrs (metaAttrs ctx)).attrs = r.attrs ++ metaAttrs ctx
    ∧ (r.AddAttrs (metaAttrs ctx)).attrs.length = r.attrs.length + 1 := by
  refine ⟨Handle_ctx_eq sink inner ctx r h, rfl, ?_⟩
  show (r.attrs ++ metaAttrs ctx).length = r.attrs.length + 1
  simp [metaAttrs]

theorem Handle_record_by_value_witness :
    metaOk [("request_method", CtxValue.vstr "GET")] = true
    ∧ (sampleRecord.AddAttrs (metaAttrs [("request_method", CtxValue.vstr "GET")])).attrs.length
      = sampleRecord.attrs.length + 1 := by
  exact ⟨rfl, (Handle_record_by_value (fun _ _ _ => Except.ok ()) Handler.json
    [("request_method", CtxValue.vstr "GET")] sampleRecord rfl).2.2⟩

theorem context_withValue_value_witness :
    ("request_method" ≠ "correlation_id")
    ∧ Context.value (Context.withValue [("request_method", CtxValue.vstr "GET")]
        "correlation_id" (CtxValue.vstr "abc")) "correlation_id"
      = some (CtxValue.vstr "abc")
    ∧ Context.value (Context.withValue [("request_method", CtxValue.vstr "GET")]
        "correlation_id" (CtxValue.vstr "abc")) "request_method"
      = Context.value [("request_method", CtxValue.vstr "GET")] "request_method" := by
  have h := context_withValue_value [("request_method", CtxValue.vstr "GET")]
    "correlation_id" "request_method" (CtxValue.vstr "abc") (by decide)
  exact ⟨by decide, h.1, h.2⟩
